import Mathlib

/-!
Shallow embedding of `src/parseHiCFile.cpp` (HiCDOC's `.hic` decoder, based on
straw). The byte stream is modelled at the granularity of the fixed-width
primitive reads the source performs: a `Tok` is one primitive value as the
source reads it (`fin.read` of 1/2/4/8 bytes, or a null-terminated `getline`).
Integer tokens carry the mathematical value of the decoded two's-complement
integer; `f32` carries the real value of the IEEE float as a rational (all
float values the source manipulates in the claims under study are exactly
representable). A read of the wrong width, or past the end of the stream,
is a failed read (`Err.truncated`). C++ undefined behaviour is made explicit:
signed integer division by zero is `Err.divByZero`, and the out-of-bounds
`info.chromosomes[0]` access is `Err.oobIndex`.
-/

/-- One primitive value of the decoded byte stream, at the width the source
reads it. -/
inductive Tok where
  | i8 (v : ℤ)
  | i16 (v : ℤ)
  | i32 (v : ℤ)
  | i64 (v : ℤ)
  | f32 (v : ℚ)
  | str (s : String)
deriving DecidableEq, Repr

/-- Failure modes of the parse. `stop(...)` calls in the source become
`badMagic` / `badVersion` / `resolutionNotFound`; short reads become
`truncated`; C++ undefined behaviour becomes `divByZero` / `oobIndex`. -/
inductive Err where
  | truncated
  | divByZero
  | oobIndex
  | badMagic
  | badVersion (v : ℤ)
  | resolutionNotFound (available : List ℤ)
deriving DecidableEq, Repr

/-- `struct hicInfo` of the source. `chromosomes` stands for the
`CharacterVector`. -/
structure hicInfo where
  master : ℤ
  availableResolutions : List ℤ
  resolution : ℤ
  selectedResolutionId : ℤ
  version : ℤ
  chromosomes : List String
  chromosomeLengths : List ℤ
  totalChromosomes : ℤ
  firstChromosomeIsAll : Bool
deriving DecidableEq, Repr

/-- `struct outputStr` of the source: four parallel growable vectors. All
four are `std::vector<int>` in the source — the `count` column included. -/
structure outputStr where
  chromosome : List ℤ
  bin1 : List ℤ
  bin2 : List ℤ
  count : List ℤ
deriving DecidableEq, Repr

def outputStr.empty : outputStr := ⟨[], [], [], []⟩

/-- `fin.read((char*)&x, SIZE_OF_CHAR)` into an `int8_t`. -/
def rdI8 : List Tok → Except Err (ℤ × List Tok)
  | Tok.i8 v :: ts => Except.ok (v, ts)
  | _ => Except.error Err.truncated

/-- `fin.read((char*)&x, SIZE_OF_SHORT)` into an `int16_t`. -/
def rdI16 : List Tok → Except Err (ℤ × List Tok)
  | Tok.i16 v :: ts => Except.ok (v, ts)
  | _ => Except.error Err.truncated

/-- `fin.read((char*)&x, SIZE_OF_INT)` into an `int32_t`. -/
def rdI32 : List Tok → Except Err (ℤ × List Tok)
  | Tok.i32 v :: ts => Except.ok (v, ts)
  | _ => Except.error Err.truncated

/-- `fin.read((char*)&x, SIZE_OF_LONG)` into an `int64_t`. -/
def rdI64 : List Tok → Except Err (ℤ × List Tok)
  | Tok.i64 v :: ts => Except.ok (v, ts)
  | _ => Except.error Err.truncated

/-- `fin.read((char*)&x, SIZE_OF_FLOAT)` into a `float`. -/
def rdF32 : List Tok → Except Err (ℚ × List Tok)
  | Tok.f32 v :: ts => Except.ok (v, ts)
  | _ => Except.error Err.truncated

/-- `getline(fin, s, '\0')`: one null-terminated string. -/
def rdStr : List Tok → Except Err (String × List Tok)
  | Tok.str s :: ts => Except.ok (s, ts)
  | _ => Except.error Err.truncated

/-- C++ `float` → `int` conversion: truncation toward zero
(`counts.push_back(count)` with `count : float` into a `vector<int>`). -/
def ratTrunc (q : ℚ) : ℤ := Int.tdiv q.num (q.den : ℤ)

/-- A rational given directly in lowest terms (kernel-reducible, unlike `/`
on `ℚ`); used to write concrete non-integer float values such as 2.5. -/
def mkQ (n : ℤ) (d : ℕ) (h1 : d ≠ 0) (h2 : n.natAbs.Coprime d) : ℚ :=
  ⟨n, d, h1, h2⟩

/-- Version < 7 record loop of `readBlock`: `totalRecords` triples of
(int32 binX, int32 binY, float count); the float count is pushed into the
`vector<int> counts`, truncating. Returns (bins1, bins2, counts). -/
def readRecordsV6 : Nat → List Tok → Except Err (List ℤ × List ℤ × List ℤ)
  | 0, _ => Except.ok ([], [], [])
  | n + 1, ts => do
    let (binX, ts) ← rdI32 ts
    let (binY, ts) ← rdI32 ts
    let (count, ts) ← rdF32 ts
    let (b1, b2, cs) ← readRecordsV6 n ts
    Except.ok (binX :: b1, binY :: b2, ratTrunc count :: cs)

/-- Inner column loop of the version ≥ 7 type-1 (list-of-rows) branch:
per column an int16 relative x, then the count at the width selected by
`useShort` (0 ⇒ 2-byte short — "yes this is opposite of usual" — else
4-byte float, truncated on push into the int vector). -/
def readT1Cols (useShort binXOffset binY : ℤ) :
    Nat → List Tok → Except Err (List ℤ × List ℤ × List ℤ × List Tok)
  | 0, ts => Except.ok ([], [], [], ts)
  | j + 1, ts => do
    let (x, ts) ← rdI16 ts
    let binX := binXOffset + x
    if useShort = 0 then
      let (c, ts) ← rdI16 ts
      let (b1, b2, cs, ts) ← readT1Cols useShort binXOffset binY j ts
      Except.ok (binX :: b1, binY :: b2, c :: cs, ts)
    else
      let (count, ts) ← rdF32 ts
      let (b1, b2, cs, ts) ← readT1Cols useShort binXOffset binY j ts
      Except.ok (binX :: b1, binY :: b2, ratTrunc count :: cs, ts)

/-- Outer row loop of the type-1 branch: per row an int16 relative y
(binY = y + binYOffset), an int16 column count, then the columns. -/
def readT1Rows (useShort binXOffset binYOffset : ℤ) :
    Nat → List Tok → Except Err (List ℤ × List ℤ × List ℤ × List Tok)
  | 0, ts => Except.ok ([], [], [], ts)
  | i + 1, ts => do
    let (y, ts) ← rdI16 ts
    let binY := y + binYOffset
    let (totalColumns, ts) ← rdI16 ts
    let (b1, b2, cs, ts) ← readT1Cols useShort binXOffset binY totalColumns.toNat ts
    let (b1', b2', cs', ts) ← readT1Rows useShort binXOffset binYOffset i ts
    Except.ok (b1 ++ b1', b2 ++ b2', cs ++ cs', ts)

/-- Point loop of the version ≥ 7 type-2 (dense) branch. `i` is the running
point index; `row = i / w` is C++ signed division (toward zero), undefined
when `w = 0`, which the embedding surfaces as `Err.divByZero`. A point is
kept unless its count equals the sentinel: `-32768` for the short width, or
— for the float width — the source's `count != 0x7fc00000`, which compares
the float VALUE against `0x7fc00000 = 2143289344` converted to float (the
conversion is exact: 2143289344 = 511 * 2^22). -/
def readT2Points (useShort binXOffset binYOffset w : ℤ) :
    Nat → ℤ → List Tok → Except Err (List ℤ × List ℤ × List ℤ)
  | 0, _, _ => Except.ok ([], [], [])
  | n + 1, i, ts =>
    if w = 0 then Except.error Err.divByZero
    else do
      let row := Int.tdiv i w
      let column := i - row * w
      let bin1 := binXOffset + column
      let bin2 := binYOffset + row
      if useShort = 0 then
        let (c, ts) ← rdI16 ts
        let (b1, b2, cs) ← readT2Points useShort binXOffset binYOffset w n (i + 1) ts
        if c ≠ -32768 then Except.ok (bin1 :: b1, bin2 :: b2, c :: cs)
        else Except.ok (b1, b2, cs)
      else
        let (count, ts) ← rdF32 ts
        let (b1, b2, cs) ← readT2Points useShort binXOffset binYOffset w n (i + 1) ts
        if count ≠ (2143289344 : ℚ) then
          Except.ok (bin1 :: b1, bin2 :: b2, ratTrunc count :: cs)
        else Except.ok (b1, b2, cs)

/-- Decoding of one decompressed block buffer (the body of `readBlock` after
inflation): int32 totalRecords, then the version- and type-dependent record
stream. Returns the three record columns (bins1, bins2, counts). An
unrecognized representation type yields no records, as in the source. -/
def readBlockData (version : ℤ) (buf : List Tok) :
    Except Err (List ℤ × List ℤ × List ℤ) := do
  let (totalRecords, ts) ← rdI32 buf
  if version < 7 then
    readRecordsV6 totalRecords.toNat ts
  else
    let (binXOffset, ts) ← rdI32 ts
    let (binYOffset, ts) ← rdI32 ts
    let (useShort, ts) ← rdI8 ts
    let (type, ts) ← rdI8 ts
    if type = 1 then
      let (totalRows, ts) ← rdI16 ts
      let (b1, b2, cs, _) ← readT1Rows useShort binXOffset binYOffset totalRows.toNat ts
      Except.ok (b1, b2, cs)
    else if type = 2 then
      let (totalPoints, ts) ← rdI32 ts
      let (w, ts) ← rdI16 ts
      readT2Points useShort binXOffset binYOffset w totalPoints.toNat 0 ts
    else
      Except.ok ([], [], [])

/-- `readBlock`: zero-size blocks are a no-op; otherwise the compressed
range at (position, size) is fetched and inflated — modelled by the oracle
`fetch`, since zlib is an external library — decoded by `readBlockData`,
and the records are appended to the four output vectors, the chromosome
column with `std::vector<int>(bins1.size(), chromosomeId)`. -/
def readBlock (fetch : ℤ → ℤ → List Tok) (position size chromosomeId : ℤ)
    (info : hicInfo) (output : outputStr) : Except Err outputStr :=
  if size = 0 then Except.ok output
  else do
    let (b1, b2, cs) ← readBlockData info.version (fetch position size)
    Except.ok
      { chromosome := output.chromosome ++ List.replicate b1.length chromosomeId
        bin1 := output.bin1 ++ b1
        bin2 := output.bin2 ++ b2
        count := output.count ++ cs }

/-- The check `str[0]=='H' && str[1]=='I' && str[2]=='C'` of
`readMagicString`. Indexing a `std::string` at `size()` yields the
terminating null (and `&&` short-circuits before any index past it), so
out-of-range indices read as the null character. -/
def magicOk (s : String) : Bool :=
  s.data.getD 0 (Char.ofNat 0) == 'H' && s.data.getD 1 (Char.ofNat 0) == 'I' &&
    s.data.getD 2 (Char.ofNat 0) == 'C'

/-- `readMagicString`: one null-terminated line, checked by `magicOk`. -/
def readMagicString (ts : List Tok) : Except Err (Bool × List Tok) := do
  let (s, ts) ← rdStr ts
  Except.ok (magicOk s, ts)

/-- Attribute loop of `readHeader`: `totalAttributes` (key, value) cstring
pairs, read and ignored. -/
def readAttributes : Nat → List Tok → Except Err (List Tok)
  | 0, ts => Except.ok ts
  | n + 1, ts => do
    let (_key, ts) ← rdStr ts
    let (_value, ts) ← rdStr ts
    readAttributes n ts

/-- Chromosome loop of `readHeader`: `totalChromosomes` (cstring name,
int32 length) pairs, collected into the two parallel tables. -/
def readChromosomes : Nat → List Tok → Except Err (List String × List ℤ × List Tok)
  | 0, ts => Except.ok ([], [], ts)
  | n + 1, ts => do
    let (name, ts) ← rdStr ts
    let (length, ts) ← rdI32 ts
    let (names, lengths, ts) ← readChromosomes n ts
    Except.ok (name :: names, length :: lengths, ts)

/-- Resolution loop of `readHeader`: int32 values collected in order; on
each value equal to the requested resolution the selected id is overwritten
with the current loop index `i` (so with duplicates the LAST match is the
one that remains). `sel` is the running `selectedResolutionId`. -/
def readResolutions (requested : ℤ) :
    Nat → ℤ → ℤ → List Tok → Except Err (List ℤ × ℤ × List Tok)
  | 0, _, sel, ts => Except.ok ([], sel, ts)
  | n + 1, i, sel, ts => do
    let (r, ts) ← rdI32 ts
    let (rs, selF, ts) ← readResolutions requested n (i + 1) (if r = requested then i else sel) ts
    Except.ok (r :: rs, selF, ts)

/-- `readHeader`: magic line, version (≥ 6 or fatal), master offset, genome
id, attributes, chromosome table, resolution table; finally
`firstChromosomeIsAll` from `info.chromosomes[0]`, an out-of-bounds access
(C++ UB, surfaced as `Err.oobIndex`) when the chromosome table is empty. -/
def readHeader (ts : List Tok) (requestedResolution : ℤ) : Except Err hicInfo := do
  let (ok, ts) ← readMagicString ts
  if !ok then Except.error Err.badMagic
  else
    let (version, ts) ← rdI32 ts
    if version < 6 then Except.error (Err.badVersion version)
    else
      let (master, ts) ← rdI64 ts
      let (_genome, ts) ← rdStr ts
      let (totalAttributes, ts) ← rdI32 ts
      let ts ← readAttributes totalAttributes.toNat ts
      let (totalChromosomes, ts) ← rdI32 ts
      let (names, lengths, ts) ← readChromosomes totalChromosomes.toNat ts
      let (totalResolutions, ts) ← rdI32 ts
      let (resolutions, sel, _) ←
        readResolutions requestedResolution totalResolutions.toNat 0 (-1) ts
      match names with
      | [] => Except.error Err.oobIndex
      | first :: _ =>
        Except.ok
          { master := master
            availableResolutions := resolutions
            resolution := requestedResolution
            selectedResolutionId := sel
            version := version
            chromosomes := names
            chromosomeLengths := lengths
            totalChromosomes := totalChromosomes
            firstChromosomeIsAll := first == "ALL" || first == "All" }

/-- The file, as the parse accesses it: `streamAt p` is the token stream the
cursor yields after `seekg(p)`; `fetch p s` is the decompressed content of
the compressed byte range at (p, s) (file read + zlib inflate, both external
to the decoding logic). -/
structure FileModel where
  streamAt : ℤ → List Tok
  fetch : ℤ → ℤ → List Tok

/-- Block-pointer loop of `readMatrix`: per block an int32 id, int64
position, int32 size; when the directory's `resolutionId` equals the
selected one, `readBlock` is invoked and the cursor restored (block bodies
are elsewhere, so the directory stream is undisturbed). -/
def readMatrixBlocks (fetch : ℤ → ℤ → List Tok) (chromosomeId resolutionId : ℤ)
    (info : hicInfo) :
    Nat → List Tok → outputStr → Except Err (List Tok × outputStr)
  | 0, ts, out => Except.ok (ts, out)
  | n + 1, ts, out => do
    let (_blockId, ts) ← rdI32 ts
    let (blockPosition, ts) ← rdI64 ts
    let (blockSize, ts) ← rdI32 ts
    if resolutionId = info.selectedResolutionId then
      let out ← readBlock fetch blockPosition blockSize chromosomeId info out
      readMatrixBlocks fetch chromosomeId resolutionId info n ts out
    else
      readMatrixBlocks fetch chromosomeId resolutionId info n ts out

/-- Resolution-directory loop of `readMatrix`: per directory a cstring
unit, int32 resolution index, four discarded float statistics, bin size,
block-bin count, block-column count, block count, then the block pointers. -/
def readMatrixResolutions (fetch : ℤ → ℤ → List Tok) (chromosomeId : ℤ)
    (info : hicInfo) :
    Nat → ℤ → List Tok → outputStr → Except Err (List Tok × outputStr)
  | 0, _, ts, out => Except.ok (ts, out)
  | n + 1, resolutionId, ts, out => do
    let (_unit, ts) ← rdStr ts
    let (_resIdx, ts) ← rdI32 ts
    let (_sumCounts, ts) ← rdF32 ts
    let (_occupiedCellCount, ts) ← rdF32 ts
    let (_stdDev, ts) ← rdF32 ts
    let (_percent95, ts) ← rdF32 ts
    let (_binSize, ts) ← rdI32 ts
    let (_totalBlockBins, ts) ← rdI32 ts
    let (_totalBlockColumns, ts) ← rdI32 ts
    let (totalBlocks, ts) ← rdI32 ts
    let (ts, out) ←
      readMatrixBlocks fetch chromosomeId resolutionId info totalBlocks.toNat ts out
    readMatrixResolutions fetch chromosomeId info n (resolutionId + 1) ts out

/-- `readMatrix`: nothing is read when `start == -1`; otherwise the two
int32 chromosome ids are read at `start`, and the directories are walked
only when the ids are equal and not (id 0 while `firstChromosomeIsAll`). -/
def readMatrix (fm : FileModel) (start _size : ℤ) (info : hicInfo)
    (output : outputStr) : Except Err outputStr :=
  if start ≠ -1 then do
    let ts := fm.streamAt start
    let (chromosomeId1, ts) ← rdI32 ts
    let (chromosomeId2, ts) ← rdI32 ts
    if chromosomeId1 = chromosomeId2 then
      if !info.firstChromosomeIsAll ∨ chromosomeId1 ≠ 0 then
        let (totalResolutions, ts) ← rdI32 ts
        let (_, out) ←
          readMatrixResolutions fm.fetch chromosomeId1 info totalResolutions.toNat 0 ts output
        Except.ok out
      else Except.ok output
    else Except.ok output
  else Except.ok output

/-- Footer entry loop of `readFooter`: per entry a cstring key, int64
position, int32 size; `readMatrix` is invoked and the footer cursor
restored afterwards. -/
def readFooterEntries (fm : FileModel) (info : hicInfo) :
    Nat → List Tok → outputStr → Except Err outputStr
  | 0, _, out => Except.ok out
  | n + 1, ts, out => do
    let (_key, ts) ← rdStr ts
    let (fpos, ts) ← rdI64 ts
    let (sizeInBytes, ts) ← rdI32 ts
    let out ← readMatrix fm fpos sizeInBytes info out
    readFooterEntries fm info n ts out

/-- `readFooter`: seek to the master offset, read the int32 total byte
count (discarded) and the int32 entry count, then the entries. -/
def readFooter (fm : FileModel) (info : hicInfo) (output : outputStr) :
    Except Err outputStr := do
  let ts := fm.streamAt info.master
  let (_totalBytes, ts) ← rdI32 ts
  let (totalEntries, ts) ← rdI32 ts
  readFooterEntries fm info totalEntries.toNat ts output

/-- `parseHiCFile` (core, up to the R marshalling): read the header from
the start of the file; if no resolution matched, fail carrying the
available resolutions before any footer access; otherwise read the footer
into a fresh accumulator. -/
def parseHiCFile (fm : FileModel) (resolution : ℤ) : Except Err outputStr := do
  let info ← readHeader (fm.streamAt 0) resolution
  if info.selectedResolutionId = -1 then
    Except.error (Err.resolutionNotFound info.availableResolutions)
  else
    readFooter fm info outputStr.empty

/-! ### Encodings of well-formed input fragments

To quantify over well-formed files the theorems below build token streams
from structured data. Each `enc…`/`mk…` definition lays out exactly the
fields the corresponding reader consumes, in the order of the binary
layout. -/

/-- Attribute dictionary layout: (cstring key, cstring value) pairs. -/
def encAttrs (attrs : List (String × String)) : List Tok :=
  attrs.flatMap fun a => [Tok.str a.1, Tok.str a.2]

/-- Chromosome table layout: (cstring name, int32 length) pairs. -/
def encChroms (chroms : List (String × ℤ)) : List Tok :=
  chroms.flatMap fun c => [Tok.str c.1, Tok.i32 c.2]

/-- Resolution table layout: int32 values. -/
def encResos (rs : List ℤ) : List Tok := rs.map Tok.i32

/-- Header layout: magic line, int32 version, int64 master offset, cstring
genome, int32 attribute count + attributes, int32 chromosome count +
chromosome table, int32 resolution count + resolution values. -/
def mkHeaderToks (magic : String) (version master : ℤ) (genome : String)
    (attrs : List (String × String)) (chroms : List (String × ℤ))
    (resolutions : List ℤ) : List Tok :=
  [Tok.str magic, Tok.i32 version, Tok.i64 master, Tok.str genome,
    Tok.i32 attrs.length] ++ encAttrs attrs ++
    [Tok.i32 chroms.length] ++ encChroms chroms ++
    [Tok.i32 resolutions.length] ++ encResos resolutions

/-- The value the resolution loop's running `selectedResolutionId` has after
scanning `rs`, having started at index `i` with current value `sel`
(mirrors the loop's assignment; proved below to select the LAST matching
index). -/
def lastMatchFrom (requested : ℤ) : List ℤ → ℤ → ℤ → ℤ
  | [], _, sel => sel
  | r :: rs, i, sel => lastMatchFrom requested rs (i + 1) (if r = requested then i else sel)

/-- Bind inversion for `Except`: a successful bind factors through a
successful first component. -/
theorem except_bind_ok {α β : Type} {x : Except Err α} {f : α → Except Err β} {b : β}
    (h : x >>= f = Except.ok b) : ∃ a, x = Except.ok a ∧ f a = Except.ok b := by
  cases x with
  | ok a => exact ⟨a, rfl, h⟩
  | error e => exact absurd h (by simp [Bind.bind, Except.bind])

theorem readAttributes_enc (attrs : List (String × String)) (rest : List Tok) :
    readAttributes attrs.length (encAttrs attrs ++ rest) = Except.ok rest := by
  induction attrs with
  | nil => rfl
  | cons a as ih =>
    simp [encAttrs, readAttributes, rdStr, Bind.bind, Except.bind,
      List.flatMap_cons] at ih ⊢
    exact ih

theorem readChromosomes_enc (chroms : List (String × ℤ)) (rest : List Tok) :
    readChromosomes chroms.length (encChroms chroms ++ rest) =
      Except.ok (chroms.map Prod.fst, chroms.map Prod.snd, rest) := by
  induction chroms with
  | nil => rfl
  | cons c cs ih =>
    simp [encChroms, readChromosomes, rdStr, rdI32, Bind.bind, Except.bind,
      List.flatMap_cons] at ih ⊢
    simp [ih]

theorem readResolutions_enc (requested : ℤ) (rs : List ℤ) (i sel : ℤ) (rest : List Tok) :
    readResolutions requested rs.length i sel (encResos rs ++ rest) =
      Except.ok (rs, lastMatchFrom requested rs i sel, rest) := by
  induction rs generalizing i sel with
  | nil => rfl
  | cons r rs ih =>
    have h := ih (i + 1) (if r = requested then i else sel)
    simp only [encResos] at h
    simp [encResos, readResolutions, rdI32, lastMatchFrom, Bind.bind, Except.bind, h]

/-- Evaluation of `readHeader` on a well-formed header stream with at least
one chromosome entry: every field of the resulting `hicInfo`, with the
selected resolution id given by the loop fold `lastMatchFrom`. -/
theorem readHeader_mk (magic : String) (version master : ℤ) (genome : String)
    (attrs : List (String × String)) (c : String × ℤ) (cs : List (String × ℤ))
    (resolutions : List ℤ) (requested : ℤ) (rest : List Tok)
    (hm : magicOk magic = true) (hv : ¬ version < 6) :
    readHeader (mkHeaderToks magic version master genome attrs (c :: cs) resolutions ++ rest)
        requested =
      Except.ok
        { master := master
          availableResolutions := resolutions
          resolution := requested
          selectedResolutionId := lastMatchFrom requested resolutions 0 (-1)
          version := version
          chromosomes := (c :: cs).map Prod.fst
          chromosomeLengths := (c :: cs).map Prod.snd
          totalChromosomes := ((c :: cs).length : ℤ)
          firstChromosomeIsAll := c.1 == "ALL" || c.1 == "All" } := by
  have ha := readAttributes_enc attrs
  have hc := readChromosomes_enc (c :: cs)
  have hr := readResolutions_enc requested resolutions 0 (-1)
  simp only [List.length_cons, List.map_cons] at hc
  simp [mkHeaderToks, readHeader, readMagicString, rdStr, rdI32, rdI64, hm, hv,
    Bind.bind, Except.bind, ha, hc, hr, List.append_assoc]

/-- If the requested value does not occur, the resolution loop leaves the
selected id unchanged. -/
theorem lastMatchFrom_not_mem (requested : ℤ) (rs : List ℤ) (i sel : ℤ)
    (h : requested ∉ rs) : lastMatchFrom requested rs i sel = sel := by
  induction rs generalizing i sel with
  | nil => rfl
  | cons r rs ih =>
    simp only [List.mem_cons, not_or] at h
    rw [lastMatchFrom, if_neg (fun hh => h.1 hh.symm)]
    exact ih _ _ h.2

/-- If the requested value occurs, the resolution loop ends at the LAST
index holding it: the index is a match and no later index is. -/
theorem lastMatchFrom_spec (requested : ℤ) (rs : List ℤ) (i sel : ℤ)
    (h : requested ∈ rs) :
    ∃ k : ℕ, k < rs.length ∧ lastMatchFrom requested rs i sel = i + (k : ℤ) ∧
      rs[k]? = some requested ∧ ∀ j : ℕ, k < j → rs[j]? ≠ some requested := by
  induction rs generalizing i sel with
  | nil => cases h
  | cons r rs ih =>
    by_cases hmem : requested ∈ rs
    · obtain ⟨k, hk, heq, hget, hafter⟩ := ih (i + 1) (if r = requested then i else sel) hmem
      refine ⟨k + 1, by simpa using hk, ?_, ?_, ?_⟩
      · rw [lastMatchFrom, heq]
        push_cast
        ring
      · simpa using hget
      · intro j hj
        cases j with
        | zero => omega
        | succ j' =>
          simpa using hafter j' (by omega)
    · have hr : r = requested := by
        rcases List.mem_cons.mp h with h1 | h2
        · exact h1.symm
        · exact absurd h2 hmem
      refine ⟨0, by simp, ?_, ?_, ?_⟩
      · rw [lastMatchFrom, if_pos hr, lastMatchFrom_not_mem requested rs _ _ hmem]
        simp
      · simp [hr]
      · intro j hj
        cases j with
        | zero => omega
        | succ j' =>
          simp only [List.getElem?_cons_succ]
          intro hc
          exact hmem (List.getElem?_mem hc)

/-! ### Block-body encodings and their decodings -/

/-- Version < 7 record layout: (int32 binX, int32 binY, float count). -/
def encV6Records (records : List (ℤ × ℤ × ℚ)) : List Tok :=
  records.flatMap fun r => [Tok.i32 r.1, Tok.i32 r.2.1, Tok.f32 r.2.2]

/-- A whole version < 7 decompressed block: int32 record count + records. -/
def mkV6Body (records : List (ℤ × ℤ × ℚ)) : List Tok :=
  Tok.i32 records.length :: encV6Records records

/-- Type-1 column layout, short counts: (int16 x, int16 count). -/
def encT1ColsShort (cols : List (ℤ × ℤ)) : List Tok :=
  cols.flatMap fun p => [Tok.i16 p.1, Tok.i16 p.2]

/-- Type-1 column layout, float counts: (int16 x, float count). -/
def encT1ColsFloat (cols : List (ℤ × ℚ)) : List Tok :=
  cols.flatMap fun p => [Tok.i16 p.1, Tok.f32 p.2]

/-- Type-1 row layout: (int16 y, int16 column count, columns). -/
def encT1RowsShort (rows : List (ℤ × List (ℤ × ℤ))) : List Tok :=
  rows.flatMap fun r => Tok.i16 r.1 :: Tok.i16 (r.2.length : ℤ) :: encT1ColsShort r.2

/-- Type-1 row layout with float counts. -/
def encT1RowsFloat (rows : List (ℤ × List (ℤ × ℚ))) : List Tok :=
  rows.flatMap fun r => Tok.i16 r.1 :: Tok.i16 (r.2.length : ℤ) :: encT1ColsFloat r.2

/-- A version ≥ 7 type-1 decompressed block, useShort = 0 (short counts). -/
def mkT1ShortBody (totalRecords binXOffset binYOffset : ℤ)
    (rows : List (ℤ × List (ℤ × ℤ))) : List Tok :=
  [Tok.i32 totalRecords, Tok.i32 binXOffset, Tok.i32 binYOffset, Tok.i8 0, Tok.i8 1,
    Tok.i16 (rows.length : ℤ)] ++ encT1RowsShort rows

/-- A version ≥ 7 type-1 decompressed block, useShort ≠ 0 (float counts). -/
def mkT1FloatBody (totalRecords binXOffset binYOffset useShort : ℤ)
    (rows : List (ℤ × List (ℤ × ℚ))) : List Tok :=
  [Tok.i32 totalRecords, Tok.i32 binXOffset, Tok.i32 binYOffset, Tok.i8 useShort, Tok.i8 1,
    Tok.i16 (rows.length : ℤ)] ++ encT1RowsFloat rows

/-- bin1 column a type-1 block's rows should decode to: one entry
`binXOffset + x` per (x, count) pair, in stream order. -/
def t1Bins1 {α : Type} (binXOffset : ℤ) (rows : List (ℤ × List (ℤ × α))) : List ℤ :=
  rows.flatMap fun r => r.2.map fun p => binXOffset + p.1

/-- bin2 column: one entry `y + binYOffset` per pair of the row. -/
def t1Bins2 {α : Type} (binYOffset : ℤ) (rows : List (ℤ × List (ℤ × α))) : List ℤ :=
  rows.flatMap fun r => r.2.map fun _ => r.1 + binYOffset

/-- count column for short counts: the stored shorts. -/
def t1CountsShort (rows : List (ℤ × List (ℤ × ℤ))) : List ℤ :=
  rows.flatMap fun r => r.2.map Prod.snd

/-- count column for float counts, as pushed into the `vector<int>`. -/
def t1CountsFloat (rows : List (ℤ × List (ℤ × ℚ))) : List ℤ :=
  rows.flatMap fun r => r.2.map fun p => ratTrunc p.2

/-- Total number of (x, y, count) entries of a type-1 block. -/
def t1Total {α : Type} (rows : List (ℤ × List (ℤ × α))) : ℕ :=
  (rows.map fun r => r.2.length).sum

theorem readRecordsV6_enc (records : List (ℤ × ℤ × ℚ)) (rest : List Tok) :
    readRecordsV6 records.length (encV6Records records ++ rest) =
      Except.ok (records.map Prod.fst, records.map fun r => r.2.1,
        records.map fun r => ratTrunc r.2.2) := by
  induction records with
  | nil => rfl
  | cons r rs ih =>
    simp only [encV6Records] at ih ⊢
    simp [readRecordsV6, rdI32, rdF32, Bind.bind, Except.bind, ih,
      List.flatMap_cons, List.append_assoc]

theorem readT1Cols_encShort (binXOffset binY : ℤ) (cols : List (ℤ × ℤ)) (rest : List Tok) :
    readT1Cols 0 binXOffset binY cols.length (encT1ColsShort cols ++ rest) =
      Except.ok (cols.map fun p => binXOffset + p.1, cols.map fun _ => binY,
        cols.map Prod.snd, rest) := by
  induction cols with
  | nil => rfl
  | cons p ps ih =>
    simp only [encT1ColsShort] at ih ⊢
    simp [readT1Cols, rdI16, Bind.bind, Except.bind, ih,
      List.flatMap_cons, List.append_assoc]

theorem readT1Cols_encFloat (us binXOffset binY : ℤ) (hus : us ≠ 0)
    (cols : List (ℤ × ℚ)) (rest : List Tok) :
    readT1Cols us binXOffset binY cols.length (encT1ColsFloat cols ++ rest) =
      Except.ok (cols.map fun p => binXOffset + p.1, cols.map fun _ => binY,
        cols.map fun p => ratTrunc p.2, rest) := by
  induction cols with
  | nil => rfl
  | cons p ps ih =>
    simp only [encT1ColsFloat] at ih ⊢
    simp [readT1Cols, rdI16, rdF32, Bind.bind, Except.bind, ih, hus,
      List.flatMap_cons, List.append_assoc]

theorem readT1Rows_encShort (binXOffset binYOffset : ℤ)
    (rows : List (ℤ × List (ℤ × ℤ))) (rest : List Tok) :
    readT1Rows 0 binXOffset binYOffset rows.length (encT1RowsShort rows ++ rest) =
      Except.ok (t1Bins1 binXOffset rows, t1Bins2 binYOffset rows, t1CountsShort rows, rest) := by
  induction rows with
  | nil => simp [encT1RowsShort, readT1Rows, t1Bins1, t1Bins2, t1CountsShort]
  | cons r rs ih =>
    have hcols := readT1Cols_encShort binXOffset (r.1 + binYOffset) r.2
      (encT1RowsShort rs ++ rest)
    simp only [encT1RowsShort] at ih hcols ⊢
    simp [readT1Rows, rdI16, Bind.bind, Except.bind, hcols, ih,
      t1Bins1, t1Bins2, t1CountsShort, List.flatMap_cons, List.append_assoc]

theorem readT1Rows_encFloat (us binXOffset binYOffset : ℤ) (hus : us ≠ 0)
    (rows : List (ℤ × List (ℤ × ℚ))) (rest : List Tok) :
    readT1Rows us binXOffset binYOffset rows.length (encT1RowsFloat rows ++ rest) =
      Except.ok (t1Bins1 binXOffset rows, t1Bins2 binYOffset rows, t1CountsFloat rows, rest) := by
  induction rows with
  | nil => simp [encT1RowsFloat, readT1Rows, t1Bins1, t1Bins2, t1CountsFloat]
  | cons r rs ih =>
    have hcols := readT1Cols_encFloat us binXOffset (r.1 + binYOffset) hus r.2
      (encT1RowsFloat rs ++ rest)
    simp only [encT1RowsFloat] at ih hcols ⊢
    simp [readT1Rows, rdI16, Bind.bind, Except.bind, hcols, ih,
      t1Bins1, t1Bins2, t1CountsFloat, List.flatMap_cons, List.append_assoc]

theorem readBlockData_mkT1Short (version totalRecords binXOffset binYOffset : ℤ)
    (hv : ¬ version < 7) (rows : List (ℤ × List (ℤ × ℤ))) :
    readBlockData version (mkT1ShortBody totalRecords binXOffset binYOffset rows) =
      Except.ok (t1Bins1 binXOffset rows, t1Bins2 binYOffset rows, t1CountsShort rows) := by
  have h := readT1Rows_encShort binXOffset binYOffset rows []
  rw [List.append_nil] at h
  simp [mkT1ShortBody, readBlockData, rdI32, rdI8, rdI16, Bind.bind, Except.bind, hv, h]

theorem readBlockData_mkT1Float (version totalRecords binXOffset binYOffset us : ℤ)
    (hv : ¬ version < 7) (hus : us ≠ 0) (rows : List (ℤ × List (ℤ × ℚ))) :
    readBlockData version (mkT1FloatBody totalRecords binXOffset binYOffset us rows) =
      Except.ok (t1Bins1 binXOffset rows, t1Bins2 binYOffset rows, t1CountsFloat rows) := by
  have h := readT1Rows_encFloat us binXOffset binYOffset hus rows []
  rw [List.append_nil] at h
  simp [mkT1FloatBody, readBlockData, rdI32, rdI8, rdI16, Bind.bind, Except.bind, hv, h]

theorem readBlockData_mkV6 (version : ℤ) (hv : version < 7) (records : List (ℤ × ℤ × ℚ)) :
    readBlockData version (mkV6Body records) =
      Except.ok (records.map Prod.fst, records.map fun r => r.2.1,
        records.map fun r => ratTrunc r.2.2) := by
  have h := readRecordsV6_enc records []
  rw [List.append_nil] at h
  simp [mkV6Body, readBlockData, rdI32, Bind.bind, Except.bind, hv, h]

/-- Type-2 point layout, short counts: one int16 per point. -/
def encT2Short (points : List ℤ) : List Tok := points.map Tok.i16

/-- Type-2 point layout, float counts: one float per point. -/
def encT2Float (points : List ℚ) : List Tok := points.map Tok.f32

/-- A version ≥ 7 type-2 decompressed block, useShort = 0: int32 point
count, int16 row stride w, then the points. -/
def mkT2ShortBody (totalRecords binXOffset binYOffset w : ℤ) (points : List ℤ) : List Tok :=
  [Tok.i32 totalRecords, Tok.i32 binXOffset, Tok.i32 binYOffset, Tok.i8 0, Tok.i8 2,
    Tok.i32 (points.length : ℤ), Tok.i16 w] ++ encT2Short points

/-- A version ≥ 7 type-2 decompressed block, useShort ≠ 0 (float counts). -/
def mkT2FloatBody (totalRecords binXOffset binYOffset useShort w : ℤ) (points : List ℚ) : List Tok :=
  [Tok.i32 totalRecords, Tok.i32 binXOffset, Tok.i32 binYOffset, Tok.i8 useShort, Tok.i8 2,
    Tok.i32 (points.length : ℤ), Tok.i16 w] ++ encT2Float points

/-- Dense-grid row of point index i: `i / w` in C++ signed division. -/
def t2Row (w : ℤ) (i : ℕ) : ℤ := Int.tdiv (i : ℤ) w

/-- Dense-grid column of point index i: `i - row * w`. -/
def t2Col (w : ℤ) (i : ℕ) : ℤ := (i : ℤ) - t2Row w i * w

/-- What a type-2 short-count block should decode to: every indexed point
whose value is not the sentinel −32768, mapped to its grid position. -/
def t2SpecShort (binXOffset binYOffset w : ℤ) (points : List ℤ) :
    List ℤ × List ℤ × List ℤ :=
  ((points.enum.filter fun p => p.2 != -32768).map fun p => binXOffset + t2Col w p.1,
   (points.enum.filter fun p => p.2 != -32768).map fun p => binYOffset + t2Row w p.1,
   (points.enum.filter fun p => p.2 != -32768).map Prod.snd)

/-- What a type-2 float-count block decodes to: every indexed point whose
float VALUE differs from 2143289344 (= 0x7fc00000 as an integer, converted
to float), mapped to its grid position, counts truncated into the int
vector. -/
def t2SpecFloat (binXOffset binYOffset w : ℤ) (points : List ℚ) :
    List ℤ × List ℤ × List ℤ :=
  ((points.enum.filter fun p => p.2 != 2143289344).map fun p => binXOffset + t2Col w p.1,
   (points.enum.filter fun p => p.2 != 2143289344).map fun p => binYOffset + t2Row w p.1,
   (points.enum.filter fun p => p.2 != 2143289344).map fun p => ratTrunc p.2)

theorem readT2Points_encShort (binXOffset binYOffset w : ℤ) (hw : w ≠ 0)
    (points : List ℤ) (i0 : ℕ) (rest : List Tok) :
    readT2Points 0 binXOffset binYOffset w points.length (i0 : ℤ) (encT2Short points ++ rest) =
      Except.ok
        (((points.enumFrom i0).filter fun p => p.2 != -32768).map
            (fun p => binXOffset + t2Col w p.1),
          ((points.enumFrom i0).filter fun p => p.2 != -32768).map
            (fun p => binYOffset + t2Row w p.1),
          ((points.enumFrom i0).filter fun p => p.2 != -32768).map Prod.snd) := by
  induction points generalizing i0 with
  | nil => rfl
  | cons p ps ih =>
    have h := ih (i0 + 1)
    push_cast at h
    simp only [encT2Short] at h ⊢
    by_cases hp : p = -32768
    · simp [readT2Points, rdI16, Bind.bind, Except.bind, hw, h, hp, t2Row, t2Col]
    · simp [readT2Points, rdI16, Bind.bind, Except.bind, hw, h, hp, t2Row, t2Col]

theorem readT2Points_encFloat (us binXOffset binYOffset w : ℤ) (hus : us ≠ 0) (hw : w ≠ 0)
    (points : List ℚ) (i0 : ℕ) (rest : List Tok) :
    readT2Points us binXOffset binYOffset w points.length (i0 : ℤ) (encT2Float points ++ rest) =
      Except.ok
        (((points.enumFrom i0).filter fun p => p.2 != 2143289344).map
            (fun p => binXOffset + t2Col w p.1),
          ((points.enumFrom i0).filter fun p => p.2 != 2143289344).map
            (fun p => binYOffset + t2Row w p.1),
          ((points.enumFrom i0).filter fun p => p.2 != 2143289344).map
            (fun p => ratTrunc p.2)) := by
  induction points generalizing i0 with
  | nil => rfl
  | cons p ps ih =>
    have h := ih (i0 + 1)
    push_cast at h
    simp only [encT2Float] at h ⊢
    by_cases hp : p = 2143289344
    · simp [readT2Points, rdF32, Bind.bind, Except.bind, hus, hw, h, hp, t2Row, t2Col]
    · simp [readT2Points, rdF32, Bind.bind, Except.bind, hus, hw, h, hp, t2Row, t2Col]

theorem readBlockData_mkT2Short (version totalRecords binXOffset binYOffset w : ℤ)
    (hv : ¬ version < 7) (hw : w ≠ 0) (points : List ℤ) :
    readBlockData version (mkT2ShortBody totalRecords binXOffset binYOffset w points) =
      Except.ok (t2SpecShort binXOffset binYOffset w points) := by
  have h := readT2Points_encShort binXOffset binYOffset w hw points 0 []
  rw [List.append_nil] at h
  simp only [Nat.cast_zero] at h
  simp [mkT2ShortBody, readBlockData, rdI32, rdI8, rdI16, Bind.bind, Except.bind, hv, h,
    t2SpecShort, List.enum]

theorem readBlockData_mkT2Float (version totalRecords binXOffset binYOffset us w : ℤ)
    (hv : ¬ version < 7) (hus : us ≠ 0) (hw : w ≠ 0) (points : List ℚ) :
    readBlockData version (mkT2FloatBody totalRecords binXOffset binYOffset us w points) =
      Except.ok (t2SpecFloat binXOffset binYOffset w points) := by
  have h := readT2Points_encFloat us binXOffset binYOffset w hus hw points 0 []
  rw [List.append_nil] at h
  simp only [Nat.cast_zero] at h
  simp [mkT2FloatBody, readBlockData, rdI32, rdI8, rdI16, Bind.bind, Except.bind, hv, h,
    t2SpecFloat, List.enum]

/-! ### Structural invariants of the decoders -/

theorem rdI16_error {ts : List Tok} {e : Err} (h : rdI16 ts = Except.error e) :
    e = Err.truncated := by
  cases ts with
  | nil => simpa [rdI16] using h.symm
  | cons t ts => cases t <;> simp [rdI16] at h <;> simp [h.symm]

theorem rdF32_error {ts : List Tok} {e : Err} (h : rdF32 ts = Except.error e) :
    e = Err.truncated := by
  cases ts with
  | nil => simpa [rdF32] using h.symm
  | cons t ts => cases t <;> simp [rdF32] at h <;> simp [h.symm]

/-- The only failure the type-2 point loop can produce besides a short read
is the division by zero, and that one only when `w = 0`: with a nonzero
stride the loop never fails with `divByZero`, whatever the stream holds. -/
theorem readT2Points_ne_divByZero (useShort binXOffset binYOffset w : ℤ) (hw : w ≠ 0) :
    ∀ (n : ℕ) (i : ℤ) (ts : List Tok),
      readT2Points useShort binXOffset binYOffset w n i ts ≠ Except.error Err.divByZero := by
  intro n
  induction n with
  | zero => intro i ts; simp [readT2Points]
  | succ n ih =>
    intro i ts
    rw [readT2Points, if_neg hw]
    by_cases hus : useShort = 0
    · simp only [hus, if_pos]
      cases hts : rdI16 ts with
      | error e =>
        simp [Bind.bind, Except.bind, hts, rdI16_error hts]
      | ok v =>
        cases hrec : readT2Points useShort binXOffset binYOffset w n (i + 1) v.2 with
        | error e =>
          have hne := ih (i + 1) v.2
          rw [hrec] at hne
          simp only [hus] at hrec
          simp [Bind.bind, Except.bind, hts, hrec]
          intro hcontra
          exact hne (by rw [hcontra])
        | ok u =>
          simp only [hus] at hrec
          simp [Bind.bind, Except.bind, hts, hrec]
          split <;> simp
    · simp only [if_neg hus]
      cases hts : rdF32 ts with
      | error e =>
        simp [Bind.bind, Except.bind, hts, rdF32_error hts]
      | ok v =>
        cases hrec : readT2Points useShort binXOffset binYOffset w n (i + 1) v.2 with
        | error e =>
          have hne := ih (i + 1) v.2
          rw [hrec] at hne
          simp [Bind.bind, Except.bind, hts, hrec]
          intro hcontra
          exact hne (by rw [hcontra])
        | ok u =>
          simp [Bind.bind, Except.bind, hts, hrec]
          split <;> simp

theorem readRecordsV6_lengths (n : ℕ) :
    ∀ (ts : List Tok) (b1 b2 cs : List ℤ),
      readRecordsV6 n ts = Except.ok (b1, b2, cs) →
      b1.length = b2.length ∧ b2.length = cs.length := by
  induction n with
  | zero =>
    intro ts b1 b2 cs h
    simp only [readRecordsV6, Except.ok.injEq, Prod.mk.injEq] at h
    obtain ⟨h1, h2, h3⟩ := h
    subst h1; subst h2; subst h3
    simp
  | succ n ih =>
    intro ts b1 b2 cs h
    simp only [readRecordsV6] at h
    obtain ⟨x, hx, h⟩ := except_bind_ok h
    obtain ⟨binX, ts1⟩ := x
    obtain ⟨y, hy, h⟩ := except_bind_ok h
    obtain ⟨binY, ts2⟩ := y
    obtain ⟨c, hcount, h⟩ := except_bind_ok h
    obtain ⟨count, ts3⟩ := c
    obtain ⟨r, hr, h⟩ := except_bind_ok h
    obtain ⟨r1, r2, r3⟩ := r
    obtain ⟨l1, l2⟩ := ih ts3 r1 r2 r3 hr
    simp only [Except.ok.injEq, Prod.mk.injEq] at h
    obtain ⟨h1, h2, h3⟩ := h
    subst h1; subst h2; subst h3
    simp [l1, l2]

theorem readT1Cols_lengths (useShort binXOffset binY : ℤ) (j : ℕ) :
    ∀ (ts : List Tok) (b1 b2 cs : List ℤ) (ts' : List Tok),
      readT1Cols useShort binXOffset binY j ts = Except.ok (b1, b2, cs, ts') →
      b1.length = b2.length ∧ b2.length = cs.length := by
  induction j with
  | zero =>
    intro ts b1 b2 cs ts' h
    simp only [readT1Cols, Except.ok.injEq, Prod.mk.injEq] at h
    obtain ⟨h1, h2, h3, h4⟩ := h
    subst h1; subst h2; subst h3
    simp
  | succ j ih =>
    intro ts b1 b2 cs ts' h
    simp only [readT1Cols] at h
    obtain ⟨x, hx, h⟩ := except_bind_ok h
    obtain ⟨xv, ts1⟩ := x
    by_cases hus : useShort = 0
    · rw [if_pos hus] at h
      obtain ⟨c, hcv, h⟩ := except_bind_ok h
      obtain ⟨cv, ts2⟩ := c
      obtain ⟨r, hr, h⟩ := except_bind_ok h
      obtain ⟨r1, r2, r3, rts⟩ := r
      obtain ⟨l1, l2⟩ := ih ts2 r1 r2 r3 rts hr
      simp only [Except.ok.injEq, Prod.mk.injEq] at h
      obtain ⟨h1, h2, h3, h4⟩ := h
      subst h1; subst h2; subst h3
      simp [l1, l2]
    · rw [if_neg hus] at h
      obtain ⟨c, hcv, h⟩ := except_bind_ok h
      obtain ⟨cv, ts2⟩ := c
      obtain ⟨r, hr, h⟩ := except_bind_ok h
      obtain ⟨r1, r2, r3, rts⟩ := r
      obtain ⟨l1, l2⟩ := ih ts2 r1 r2 r3 rts hr
      simp only [Except.ok.injEq, Prod.mk.injEq] at h
      obtain ⟨h1, h2, h3, h4⟩ := h
      subst h1; subst h2; subst h3
      simp [l1, l2]

theorem readT1Rows_lengths (useShort binXOffset binYOffset : ℤ) (n : ℕ) :
    ∀ (ts : List Tok) (b1 b2 cs : List ℤ) (ts' : List Tok),
      readT1Rows useShort binXOffset binYOffset n ts = Except.ok (b1, b2, cs, ts') →
      b1.length = b2.length ∧ b2.length = cs.length := by
  induction n with
  | zero =>
    intro ts b1 b2 cs ts' h
    simp only [readT1Rows, Except.ok.injEq, Prod.mk.injEq] at h
    obtain ⟨h1, h2, h3, h4⟩ := h
    subst h1; subst h2; subst h3
    simp
  | succ n ih =>
    intro ts b1 b2 cs ts' h
    simp only [readT1Rows] at h
    obtain ⟨x, hx, h⟩ := except_bind_ok h
    obtain ⟨yv, ts1⟩ := x
    obtain ⟨t, ht, h⟩ := except_bind_ok h
    obtain ⟨tc, ts2⟩ := t
    obtain ⟨c, hcols, h⟩ := except_bind_ok h
    obtain ⟨c1, c2, c3, cts⟩ := c
    obtain ⟨r, hr, h⟩ := except_bind_ok h
    obtain ⟨r1, r2, r3, rts⟩ := r
    obtain ⟨lc1, lc2⟩ := readT1Cols_lengths useShort binXOffset (yv + binYOffset) tc.toNat ts2 c1 c2 c3 cts hcols
    obtain ⟨lr1, lr2⟩ := ih cts r1 r2 r3 rts hr
    simp only [Except.ok.injEq, Prod.mk.injEq] at h
    obtain ⟨h1, h2, h3, h4⟩ := h
    subst h1; subst h2; subst h3
    simp [lc1, lc2, lr1, lr2]

theorem readT2Points_lengths (useShort binXOffset binYOffset w : ℤ) (n : ℕ) :
    ∀ (i : ℤ) (ts : List Tok) (b1 b2 cs : List ℤ),
      readT2Points useShort binXOffset binYOffset w n i ts = Except.ok (b1, b2, cs) →
      b1.length = b2.length ∧ b2.length = cs.length := by
  induction n with
  | zero =>
    intro i ts b1 b2 cs h
    simp only [readT2Points, Except.ok.injEq, Prod.mk.injEq] at h
    obtain ⟨h1, h2, h3⟩ := h
    subst h1; subst h2; subst h3
    simp
  | succ n ih =>
    intro i ts b1 b2 cs h
    by_cases hw : w = 0
    · rw [readT2Points, if_pos hw] at h
      exact absurd h (by simp)
    · rw [readT2Points, if_neg hw] at h
      by_cases hus : useShort = 0
      · rw [if_pos hus] at h
        obtain ⟨c, hcv, h⟩ := except_bind_ok h
        obtain ⟨cv, ts1⟩ := c
        obtain ⟨r, hr, h⟩ := except_bind_ok h
        obtain ⟨r1, r2, r3⟩ := r
        obtain ⟨l1, l2⟩ := ih (i + 1) ts1 r1 r2 r3 hr
        dsimp only at h
        split at h <;>
          (simp only [Except.ok.injEq, Prod.mk.injEq] at h
           obtain ⟨h1, h2, h3⟩ := h
           subst h1; subst h2; subst h3
           simp [l1, l2])
      · rw [if_neg hus] at h
        obtain ⟨c, hcv, h⟩ := except_bind_ok h
        obtain ⟨cv, ts1⟩ := c
        obtain ⟨r, hr, h⟩ := except_bind_ok h
        obtain ⟨r1, r2, r3⟩ := r
        obtain ⟨l1, l2⟩ := ih (i + 1) ts1 r1 r2 r3 hr
        dsimp only at h
        split at h <;>
          (simp only [Except.ok.injEq, Prod.mk.injEq] at h
           obtain ⟨h1, h2, h3⟩ := h
           subst h1; subst h2; subst h3
           simp [l1, l2])

/-- Whatever the decompressed buffer holds, a successful block decode
produces three record columns of equal length. -/
theorem readBlockData_lengths (version : ℤ) (buf : List Tok) (b1 b2 cs : List ℤ)
    (h : readBlockData version buf = Except.ok (b1, b2, cs)) :
    b1.length = b2.length ∧ b2.length = cs.length := by
  simp only [readBlockData] at h
  obtain ⟨t, ht, h⟩ := except_bind_ok h
  obtain ⟨totalRecords, ts0⟩ := t
  by_cases hv : version < 7
  · rw [if_pos hv] at h
    exact readRecordsV6_lengths totalRecords.toNat ts0 b1 b2 cs h
  · rw [if_neg hv] at h
    obtain ⟨x, hx, h⟩ := except_bind_ok h
    obtain ⟨binXOffset, ts1⟩ := x
    obtain ⟨y, hy, h⟩ := except_bind_ok h
    obtain ⟨binYOffset, ts2⟩ := y
    obtain ⟨u, hu, h⟩ := except_bind_ok h
    obtain ⟨useShort, ts3⟩ := u
    obtain ⟨ty, hty, h⟩ := except_bind_ok h
    obtain ⟨type, ts4⟩ := ty
    by_cases h1 : type = 1
    · rw [if_pos h1] at h
      obtain ⟨tr, htr, h⟩ := except_bind_ok h
      obtain ⟨totalRows, ts5⟩ := tr
      obtain ⟨r, hr, h⟩ := except_bind_ok h
      obtain ⟨r1, r2, r3, rts⟩ := r
      obtain ⟨l1, l2⟩ := readT1Rows_lengths useShort binXOffset binYOffset totalRows.toNat ts5 r1 r2 r3 rts hr
      simp only [Except.ok.injEq, Prod.mk.injEq] at h
      obtain ⟨e1, e2, e3⟩ := h
      subst e1; subst e2; subst e3
      exact ⟨l1, l2⟩
    · rw [if_neg h1] at h
      by_cases h2 : type = 2
      · rw [if_pos h2] at h
        obtain ⟨tp, htp, h⟩ := except_bind_ok h
        obtain ⟨totalPoints, ts5⟩ := tp
        obtain ⟨wv, hwv, h⟩ := except_bind_ok h
        obtain ⟨w, ts6⟩ := wv
        exact readT2Points_lengths useShort binXOffset binYOffset w totalPoints.toNat 0 ts6 b1 b2 cs h
      · rw [if_neg h2] at h
        simp only [Except.ok.injEq, Prod.mk.injEq] at h
        obtain ⟨e1, e2, e3⟩ := h
        subst e1; subst e2; subst e3
        simp

/-- A successful `readBlock` appends the same number k of elements to
each of the four output vectors. -/
theorem readBlock_appends (fetch : ℤ → ℤ → List Tok) (position size chromosomeId : ℤ)
    (info : hicInfo) (out out' : outputStr)
    (h : readBlock fetch position size chromosomeId info out = Except.ok out') :
    ∃ k, out'.chromosome.length = out.chromosome.length + k ∧
      out'.bin1.length = out.bin1.length + k ∧
      out'.bin2.length = out.bin2.length + k ∧
      out'.count.length = out.count.length + k := by
  rw [readBlock] at h
  by_cases hs : size = 0
  · rw [if_pos hs] at h
    simp only [Except.ok.injEq] at h
    subst h
    exact ⟨0, by simp⟩
  · rw [if_neg hs] at h
    obtain ⟨d, hd, h⟩ := except_bind_ok h
    obtain ⟨b1, b2, cs⟩ := d
    obtain ⟨l1, l2⟩ := readBlockData_lengths info.version (fetch position size) b1 b2 cs hd
    simp only [Except.ok.injEq] at h
    subst h
    exact ⟨b1.length, by simp [l1, l2]⟩

/-- The four output vectors have equal length. -/
def outputStr.balanced (o : outputStr) : Prop :=
  o.chromosome.length = o.bin1.length ∧ o.bin1.length = o.bin2.length ∧
    o.bin2.length = o.count.length

theorem readBlock_balanced {fetch : ℤ → ℤ → List Tok} {position size chromosomeId : ℤ}
    {info : hicInfo} {out out' : outputStr}
    (h : readBlock fetch position size chromosomeId info out = Except.ok out')
    (hb : out.balanced) : out'.balanced := by
  obtain ⟨k, h1, h2, h3, h4⟩ := readBlock_appends fetch position size chromosomeId info out out' h
  obtain ⟨b1, b2, b3⟩ := hb
  exact ⟨by omega, by omega, by omega⟩

theorem readMatrixBlocks_balanced {fetch : ℤ → ℤ → List Tok} {cid rid : ℤ}
    {info : hicInfo} (n : ℕ) :
    ∀ {ts : List Tok} {out : outputStr} {ts' : List Tok} {out' : outputStr},
      readMatrixBlocks fetch cid rid info n ts out = Except.ok (ts', out') →
      out.balanced → out'.balanced := by
  induction n with
  | zero =>
    intro ts out ts' out' h hb
    simp only [readMatrixBlocks, Except.ok.injEq, Prod.mk.injEq] at h
    obtain ⟨h1, h2⟩ := h
    subst h2
    exact hb
  | succ n ih =>
    intro ts out ts' out' h hb
    simp only [readMatrixBlocks] at h
    obtain ⟨x, hx, h⟩ := except_bind_ok h
    obtain ⟨blockId, ts1⟩ := x
    obtain ⟨y, hy, h⟩ := except_bind_ok h
    obtain ⟨blockPos, ts2⟩ := y
    obtain ⟨z, hz, h⟩ := except_bind_ok h
    obtain ⟨blockSize, ts3⟩ := z
    by_cases hsel : rid = info.selectedResolutionId
    · rw [if_pos hsel] at h
      obtain ⟨o, ho, h⟩ := except_bind_ok h
      exact ih h (readBlock_balanced ho hb)
    · rw [if_neg hsel] at h
      exact ih h hb

theorem readMatrixResolutions_balanced {fetch : ℤ → ℤ → List Tok} {cid : ℤ}
    {info : hicInfo} (n : ℕ) :
    ∀ {rid : ℤ} {ts : List Tok} {out : outputStr} {ts' : List Tok} {out' : outputStr},
      readMatrixResolutions fetch cid info n rid ts out = Except.ok (ts', out') →
      out.balanced → out'.balanced := by
  induction n with
  | zero =>
    intro rid ts out ts' out' h hb
    simp only [readMatrixResolutions, Except.ok.injEq, Prod.mk.injEq] at h
    obtain ⟨h1, h2⟩ := h
    subst h2
    exact hb
  | succ n ih =>
    intro rid ts out ts' out' h hb
    simp only [readMatrixResolutions] at h
    obtain ⟨a1, e1, h⟩ := except_bind_ok h
    obtain ⟨u, ts1⟩ := a1
    obtain ⟨a2, e2, h⟩ := except_bind_ok h
    obtain ⟨ri, ts2⟩ := a2
    obtain ⟨a3, e3, h⟩ := except_bind_ok h
    obtain ⟨s1, ts3⟩ := a3
    obtain ⟨a4, e4, h⟩ := except_bind_ok h
    obtain ⟨s2, ts4⟩ := a4
    obtain ⟨a5, e5, h⟩ := except_bind_ok h
    obtain ⟨s3, ts5⟩ := a5
    obtain ⟨a6, e6, h⟩ := except_bind_ok h
    obtain ⟨s4, ts6⟩ := a6
    obtain ⟨a7, e7, h⟩ := except_bind_ok h
    obtain ⟨bs, ts7⟩ := a7
    obtain ⟨a8, e8, h⟩ := except_bind_ok h
    obtain ⟨bb, ts8⟩ := a8
    obtain ⟨a9, e9, h⟩ := except_bind_ok h
    obtain ⟨bc, ts9⟩ := a9
    obtain ⟨a10, e10, h⟩ := except_bind_ok h
    obtain ⟨tb, ts10⟩ := a10
    obtain ⟨a11, e11, h⟩ := except_bind_ok h
    obtain ⟨tsb, outb⟩ := a11
    exact ih h (readMatrixBlocks_balanced tb.toNat e11 hb)

theorem readMatrix_balanced {fm : FileModel} {start size : ℤ} {info : hicInfo}
    {out out' : outputStr}
    (h : readMatrix fm start size info out = Except.ok out')
    (hb : out.balanced) : out'.balanced := by
  rw [readMatrix] at h
  by_cases hstart : start ≠ -1
  · rw [if_pos hstart] at h
    obtain ⟨x, hx, h⟩ := except_bind_ok h
    obtain ⟨cid1, ts1⟩ := x
    obtain ⟨y, hy, h⟩ := except_bind_ok h
    obtain ⟨cid2, ts2⟩ := y
    dsimp only at h
    by_cases heq : cid1 = cid2
    · rw [if_pos heq] at h
      by_cases hall : (!info.firstChromosomeIsAll : Bool) = true ∨ cid1 ≠ 0
      · rw [if_pos hall] at h
        obtain ⟨z, hz, h⟩ := except_bind_ok h
        obtain ⟨tr, ts3⟩ := z
        obtain ⟨o, ho, h⟩ := except_bind_ok h
        obtain ⟨tso, outo⟩ := o
        simp only [Except.ok.injEq] at h
        subst h
        exact readMatrixResolutions_balanced tr.toNat ho hb
      · rw [if_neg hall] at h
        simp only [Except.ok.injEq] at h
        subst h
        exact hb
    · rw [if_neg heq] at h
      simp only [Except.ok.injEq] at h
      subst h
      exact hb
  · rw [if_neg hstart] at h
    simp only [Except.ok.injEq] at h
    subst h
    exact hb

theorem readFooterEntries_balanced {fm : FileModel} {info : hicInfo} (n : ℕ) :
    ∀ {ts : List Tok} {out out' : outputStr},
      readFooterEntries fm info n ts out = Except.ok out' →
      out.balanced → out'.balanced := by
  induction n with
  | zero =>
    intro ts out out' h hb
    simp only [readFooterEntries, Except.ok.injEq] at h
    subst h
    exact hb
  | succ n ih =>
    intro ts out out' h hb
    simp only [readFooterEntries] at h
    obtain ⟨x, hx, h⟩ := except_bind_ok h
    obtain ⟨key, ts1⟩ := x
    obtain ⟨y, hy, h⟩ := except_bind_ok h
    obtain ⟨fpos, ts2⟩ := y
    obtain ⟨z, hz, h⟩ := except_bind_ok h
    obtain ⟨sz, ts3⟩ := z
    obtain ⟨o, ho, h⟩ := except_bind_ok h
    exact ih h (readMatrix_balanced ho hb)

theorem readFooter_balanced {fm : FileModel} {info : hicInfo} {out out' : outputStr}
    (h : readFooter fm info out = Except.ok out') (hb : out.balanced) : out'.balanced := by
  simp only [readFooter] at h
  obtain ⟨x, hx, h⟩ := except_bind_ok h
  obtain ⟨tb, ts1⟩ := x
  obtain ⟨y, hy, h⟩ := except_bind_ok h
  obtain ⟨te, ts2⟩ := y
  exact readFooterEntries_balanced te.toNat h hb

theorem parseHiCFile_balanced {fm : FileModel} {resolution : ℤ} {out' : outputStr}
    (h : parseHiCFile fm resolution = Except.ok out') : out'.balanced := by
  simp only [parseHiCFile] at h
  obtain ⟨info, hinfo, h⟩ := except_bind_ok h
  by_cases hsel : info.selectedResolutionId = -1
  · rw [if_pos hsel] at h
    exact absurd h (by simp)
  · rw [if_neg hsel] at h
    exact readFooter_balanced h ⟨rfl, rfl, rfl⟩

/-! ### Concrete inputs used by the closed theorems below -/

/-- A `hicInfo` as produced for a version-6 file with one chromosome and
resolution 10. -/
def infoV6 : hicInfo := ⟨0, [10], 10, 0, 6, ["chr1"], [100], 1, false⟩

/-- A `hicInfo` as produced for a version-8 file (the demo file below). -/
def infoDemo : hicInfo := ⟨50, [10], 10, 0, 8, ["chr1"], [100], 1, false⟩

/-- A `hicInfo` whose first chromosome is the synthetic "ALL" aggregate. -/
def infoAll : hicInfo := ⟨50, [10], 10, 0, 8, ["ALL", "chr1"], [100, 100], 2, true⟩

/-- A header whose resolution table holds the requested resolution twice. -/
def dupHeaderToks : List Tok :=
  [Tok.str "HICx", Tok.i32 8, Tok.i64 999, Tok.str "hg19", Tok.i32 0,
   Tok.i32 1, Tok.str "chr1", Tok.i32 100,
   Tok.i32 2, Tok.i32 10, Tok.i32 10]

/-- A header declaring zero chromosomes (empty chromosome table). -/
def noChromHeaderToks : List Tok :=
  [Tok.str "HIC", Tok.i32 8, Tok.i64 999, Tok.str "hg19", Tok.i32 0,
   Tok.i32 0, Tok.i32 1, Tok.i32 10]

/-- Header region of a small complete demo file: version 8, master offset
50, one chromosome "chr1", one resolution 10. -/
def demoHeaderToks : List Tok :=
  [Tok.str "HIC", Tok.i32 8, Tok.i64 50, Tok.str "hg19", Tok.i32 0,
   Tok.i32 1, Tok.str "chr1", Tok.i32 100,
   Tok.i32 1, Tok.i32 10]

/-- Footer region at offset 50: one index entry pointing at offset 100. -/
def demoFooterToks : List Tok :=
  [Tok.i32 0, Tok.i32 1, Tok.str "1_1", Tok.i64 100, Tok.i32 9]

/-- Matrix region at offset 100: diagonal pair (1, 1), one resolution
directory (index 0), one block of size 5 at offset 200. -/
def demoMatrixToks : List Tok :=
  [Tok.i32 1, Tok.i32 1, Tok.i32 1,
   Tok.str "BP", Tok.i32 0, Tok.f32 0, Tok.f32 0, Tok.f32 0, Tok.f32 0,
   Tok.i32 10, Tok.i32 1, Tok.i32 1, Tok.i32 1,
   Tok.i32 0, Tok.i64 200, Tok.i32 5]

/-- Decompressed block content: one type-1 float record (x=3, y=2, 7.0). -/
def demoBlockToks : List Tok :=
  [Tok.i32 1, Tok.i32 0, Tok.i32 0, Tok.i8 1, Tok.i8 1,
   Tok.i16 1, Tok.i16 2, Tok.i16 1, Tok.i16 3, Tok.f32 7]

/-- The demo file assembled into a file model. -/
def demoFile : FileModel :=
  ⟨fun p =>
    if p = 0 then demoHeaderToks
    else if p = 50 then demoFooterToks
    else if p = 100 then demoMatrixToks
    else [],
   fun _ _ => demoBlockToks⟩

/-- End-to-end sanity check: the demo file parses to the single record
(chromosome 1, bin1 3, bin2 2, count 7). -/
theorem demoFile_parse : parseHiCFile demoFile 10 = Except.ok ⟨[1], [3], [2], [7]⟩ := rfl

/-- A file whose header lacks resolution 10, with empty regions elsewhere. -/
def noResFile : FileModel :=
  ⟨fun p => if p = 0 then mkHeaderToks "HIC" 8 50 "" [] [("chr1", 100)] [5000, 25000]
    else [],
   fun _ _ => []⟩

/-- Same header as `noResFile` but entirely different (well-formed) footer,
matrix and block content everywhere else. -/
def noResFileJunk : FileModel :=
  ⟨fun p => if p = 0 then mkHeaderToks "HIC" 8 50 "" [] [("chr1", 100)] [5000, 25000]
    else demoFooterToks,
   fun _ _ => demoBlockToks⟩

/-- A file whose matrix region holds the off-diagonal pair (1, 2). -/
def offDiagFile : FileModel :=
  ⟨fun _ => [Tok.i32 1, Tok.i32 2], fun _ _ => demoBlockToks⟩

/-- A file whose matrix region holds the pair (0, 0), the synthetic "ALL"
chromosome. -/
def allPairFile : FileModel :=
  ⟨fun _ => [Tok.i32 0, Tok.i32 0], fun _ _ => demoBlockToks⟩

/-! ### Auxiliary length and reshaping lemmas -/

theorem t1Bins1_length {α : Type} (binXOffset : ℤ) (rows : List (ℤ × List (ℤ × α))) :
    (t1Bins1 binXOffset rows).length = t1Total rows := by
  simp [t1Bins1, t1Total, Function.comp_def]

theorem t1Bins2_length {α : Type} (binYOffset : ℤ) (rows : List (ℤ × List (ℤ × α))) :
    (t1Bins2 binYOffset rows).length = t1Total rows := by
  simp [t1Bins2, t1Total, Function.comp_def]

theorem t1CountsShort_length (rows : List (ℤ × List (ℤ × ℤ))) :
    (t1CountsShort rows).length = t1Total rows := by
  simp [t1CountsShort, t1Total, Function.comp_def]

theorem t1CountsFloat_length (rows : List (ℤ × List (ℤ × ℚ))) :
    (t1CountsFloat rows).length = t1Total rows := by
  simp [t1CountsFloat, t1Total, Function.comp_def]

/-- Rows with a single column each decode to the plain record columns. -/
theorem t1_single_rows (records : List (ℤ × ℤ × ℚ)) :
    t1Bins1 0 (records.map fun r => (r.2.1, [(r.1, r.2.2)])) = records.map Prod.fst ∧
    t1Bins2 0 (records.map fun r => (r.2.1, [(r.1, r.2.2)])) = records.map (fun r => r.2.1) ∧
    t1CountsFloat (records.map fun r => (r.2.1, [(r.1, r.2.2)])) =
      records.map fun r => ratTrunc r.2.2 := by
  induction records with
  | nil => simp [t1Bins1, t1Bins2, t1CountsFloat]
  | cons r rs ih =>
    obtain ⟨h1, h2, h3⟩ := ih
    refine ⟨?_, ?_, ?_⟩ <;>
      simp [t1Bins1, t1Bins2, t1CountsFloat, List.flatMap_cons, h1, h2, h3] at h1 h2 h3 ⊢ <;>
      simp [h1, h2, h3]

/-! ### The claims -/

/-- Claim C1 (code bug): the claim states that every emitted ContactRecord
carries the floating-point count read from the record stream (a stored 2.5
is returned as 2.5). The code pushes the float into `std::vector<int>
counts` (and `outputStr.count` is `std::vector<int>` too), truncating
toward zero: a version-6 block whose single record has binX = 1, binY = 2
and stored count 2.5 decodes to the integer count 2. This theorem evaluates
the embedded code at that failing input. -/
theorem c1_count_truncated :
    readBlock (fun _ _ => mkV6Body [(1, 2, mkQ 5 2 (by decide) (by decide))]) 0 1 0
        infoV6 outputStr.empty =
      Except.ok ⟨[0], [1], [2], [2]⟩ := rfl

/-- Claim C2, corrected: with a duplicated resolution value the header
reader records the LAST matching index, not the first — the loop overwrites
`selectedResolutionId` on every match. For every well-formed header whose
resolution table contains the requested value, the recorded index is a
matching index and no later index matches. -/
theorem c2_last_match_wins (magic : String) (version master : ℤ) (genome : String)
    (attrs : List (String × String)) (c : String × ℤ) (cs : List (String × ℤ))
    (resolutions : List ℤ) (requested : ℤ) (rest : List Tok)
    (hm : magicOk magic = true) (hv : ¬ version < 6) (hmem : requested ∈ resolutions) :
    ∃ (info : hicInfo) (k : ℕ),
      readHeader (mkHeaderToks magic version master genome attrs (c :: cs) resolutions ++ rest)
          requested = Except.ok info ∧
        info.selectedResolutionId = (k : ℤ) ∧ resolutions[k]? = some requested ∧
        ∀ j : ℕ, k < j → resolutions[j]? ≠ some requested := by
  obtain ⟨k, hk, heq, hget, hafter⟩ := lastMatchFrom_spec requested resolutions 0 (-1) hmem
  exact ⟨_, k,
    readHeader_mk magic version master genome attrs c cs resolutions requested rest hm hv,
    by simp [heq], hget, hafter⟩

/-- Claim C2 counterexample: a header whose resolution table is [10, 10]
with request 10 records index 1 — not the first matching index, 0. -/
theorem c2_counterexample :
    readHeader dupHeaderToks 10 =
        Except.ok ⟨999, [10, 10], 10, 1, 8, ["chr1"], [100], 1, false⟩ ∧ (1 : ℤ) ≠ 0 :=
  ⟨rfl, by decide⟩

/-- Witness for the corrected C2 at a concrete duplicated table. -/
theorem c2_witness :
    ∃ (info : hicInfo) (k : ℕ),
      readHeader (mkHeaderToks "HICx" 8 999 "hg19" [] [("chr1", 100)] [10, 10] ++ []) 10 =
          Except.ok info ∧
        info.selectedResolutionId = (k : ℤ) ∧ [(10 : ℤ), 10][k]? = some 10 ∧
        ∀ j : ℕ, k < j → [(10 : ℤ), 10][j]? ≠ some 10 :=
  c2_last_match_wins "HICx" 8 999 "hg19" [] ("chr1", 100) [] [10, 10] 10 []
    (by decide) (by decide) (by decide)

/-- Claim C3: when the requested resolution is absent from the resolution
table, the parse fails with the resolution-not-found error carrying the
full table, no records are returned (the result is the bare error), and
the master offset is never dereferenced: the outcome is identical for any
two files sharing that header, whatever their footer, matrix and block
regions hold. -/
theorem c3_resolution_not_found (magic : String) (version master : ℤ) (genome : String)
    (attrs : List (String × String)) (c : String × ℤ) (cs : List (String × ℤ))
    (resolutions : List ℤ) (requested : ℤ) (rest rest2 : List Tok) (fm fm2 : FileModel)
    (hm : magicOk magic = true) (hv : ¬ version < 6) (hmem : requested ∉ resolutions)
    (h0 : fm.streamAt 0 =
      mkHeaderToks magic version master genome attrs (c :: cs) resolutions ++ rest)
    (h02 : fm2.streamAt 0 =
      mkHeaderToks magic version master genome attrs (c :: cs) resolutions ++ rest2) :
    parseHiCFile fm requested = Except.error (Err.resolutionNotFound resolutions) ∧
      parseHiCFile fm2 requested = parseHiCFile fm requested := by
  have hsel := lastMatchFrom_not_mem requested resolutions 0 (-1) hmem
  have key : ∀ (g : FileModel) (r : List Tok),
      g.streamAt 0 = mkHeaderToks magic version master genome attrs (c :: cs) resolutions ++ r →
      parseHiCFile g requested = Except.error (Err.resolutionNotFound resolutions) := by
    intro g r hg
    simp [parseHiCFile, hg,
      readHeader_mk magic version master genome attrs c cs resolutions requested r hm hv,
      Bind.bind, Except.bind, hsel]
  exact ⟨key fm rest h0, (key fm2 rest2 h02).trans (key fm rest h0).symm⟩

/-- Witness for C3: two concrete files sharing a header without resolution
10 but with different content elsewhere fail identically. -/
theorem c3_witness :
    parseHiCFile noResFile 10 = Except.error (Err.resolutionNotFound [5000, 25000]) ∧
      parseHiCFile noResFileJunk 10 = parseHiCFile noResFile 10 :=
  c3_resolution_not_found "HIC" 8 50 "" [] ("chr1", 100) [] [5000, 25000] 10 [] []
    noResFile noResFileJunk (by decide) (by decide) (by decide) rfl rfl

/-- Claim C4: a version ≥ 7 type-1 block with N (x, y, count) entries
decodes to exactly N records with bin1 = binXOffset + x and
bin2 = y + binYOffset, no sentinel filtering, the count consumed as a
2-byte short when useShort = 0 and as a 4-byte float otherwise. -/
theorem c4_type1_records (version totalRecords binXOffset binYOffset us : ℤ)
    (rowsS : List (ℤ × List (ℤ × ℤ))) (rowsF : List (ℤ × List (ℤ × ℚ)))
    (hv : ¬ version < 7) (hus : us ≠ 0) :
    (readBlockData version (mkT1ShortBody totalRecords binXOffset binYOffset rowsS) =
        Except.ok (t1Bins1 binXOffset rowsS, t1Bins2 binYOffset rowsS, t1CountsShort rowsS) ∧
      (t1Bins1 binXOffset rowsS).length = t1Total rowsS ∧
      (t1Bins2 binYOffset rowsS).length = t1Total rowsS ∧
      (t1CountsShort rowsS).length = t1Total rowsS) ∧
    (readBlockData version (mkT1FloatBody totalRecords binXOffset binYOffset us rowsF) =
        Except.ok (t1Bins1 binXOffset rowsF, t1Bins2 binYOffset rowsF, t1CountsFloat rowsF) ∧
      (t1Bins1 binXOffset rowsF).length = t1Total rowsF ∧
      (t1Bins2 binYOffset rowsF).length = t1Total rowsF ∧
      (t1CountsFloat rowsF).length = t1Total rowsF) :=
  ⟨⟨readBlockData_mkT1Short version totalRecords binXOffset binYOffset hv rowsS,
    t1Bins1_length binXOffset rowsS, t1Bins2_length binYOffset rowsS,
    t1CountsShort_length rowsS⟩,
   ⟨readBlockData_mkT1Float version totalRecords binXOffset binYOffset us hv hus rowsF,
    t1Bins1_length binXOffset rowsF, t1Bins2_length binYOffset rowsF,
    t1CountsFloat_length rowsF⟩⟩

/-- Witness for C4 at concrete blocks (note the short branch keeps even a
−32768 count: no sentinel filtering in type 1). -/
theorem c4_witness :
    readBlockData 7 (mkT1ShortBody 2 100 200 [(2, [(3, 5), (4, -32768)])]) =
        Except.ok ([103, 104], [202, 202], [5, -32768]) ∧
      readBlockData 7 (mkT1FloatBody 2 100 200 1 [(2, [(3, mkQ 7 2 (by decide) (by decide))])]) =
        Except.ok ([103], [202], [3]) := by
  have h := c4_type1_records 7 2 100 200 1 [(2, [(3, 5), (4, -32768)])]
    [(2, [(3, mkQ 7 2 (by decide) (by decide))])] (by decide) (by decide)
  exact ⟨h.1.1.trans (by rfl), h.2.1.trans (by rfl)⟩

/-- Claim C5, corrected: in a version ≥ 7 type-2 block a point is emitted
iff its count is not the sentinel; the short sentinel is −32768 as claimed,
but the float comparison `count != 0x7fc00000` compares the float VALUE
against 2143289344 (0x7fc00000 converted to float), not the bit pattern of
the quiet NaN: a count equal to the number 2143289344.0 is dropped even
though its bit pattern is not 0x7fc00000. -/
theorem c5_type2_sentinel (version totalRecords binXOffset binYOffset us w : ℤ)
    (pointsS : List ℤ) (pointsF : List ℚ)
    (hv : ¬ version < 7) (hus : us ≠ 0) (hw : w ≠ 0) :
    readBlockData version (mkT2ShortBody totalRecords binXOffset binYOffset w pointsS) =
        Except.ok (t2SpecShort binXOffset binYOffset w pointsS) ∧
      readBlockData version (mkT2FloatBody totalRecords binXOffset binYOffset us w pointsF) =
        Except.ok (t2SpecFloat binXOffset binYOffset w pointsF) :=
  ⟨readBlockData_mkT2Short version totalRecords binXOffset binYOffset w hv hw pointsS,
   readBlockData_mkT2Float version totalRecords binXOffset binYOffset us w hv hus hw pointsF⟩

/-- Claim C5 counterexample: a float-encoded point whose value is the
ordinary float 2143289344.0 (bit pattern 0x4EFF8000, not 0x7fc00000) is
dropped, while 2143289345.0 is kept — the code filters on the numeric
value, not on the NaN bit pattern the claim states. -/
theorem c5_counterexample :
    readBlockData 7 (mkT2FloatBody 1 100 200 1 1 [(2143289344 : ℚ)]) =
        Except.ok ([], [], []) ∧
      readBlockData 7 (mkT2FloatBody 1 100 200 1 1 [(2143289345 : ℚ)]) =
        Except.ok ([100], [200], [2143289345]) :=
  ⟨rfl, rfl⟩

/-- Witness for C5: the claim's own w = 3 example — six short points with
the sentinel at index 4 yield five records, omitting exactly row 1, col 1. -/
theorem c5_witness :
    readBlockData 7 (mkT2ShortBody 6 0 0 3 [1, 2, 3, 4, -32768, 6]) =
      Except.ok ([0, 1, 2, 0, 2], [0, 0, 0, 1, 1], [1, 2, 3, 4, 6]) :=
  ((c5_type2_sentinel 7 6 0 0 1 3 [1, 2, 3, 4, -32768, 6] [] (by decide) (by decide)
      (by decide)).1).trans (by rfl)

/-- The version ≥ 7 type-1 encoding of a record list, one single-column row
per record with both offsets 0 and useShort = 1 (float counts) — the "same
content in the v7 layout" encoding of claim C6. -/
def mkT1SingleBody (records : List (ℤ × ℤ × ℚ)) : List Tok :=
  mkT1FloatBody (records.length : ℤ) 0 0 1 (records.map fun r => (r.2.1, [(r.1, r.2.2)]))

/-- Claim C6: the version < 7 encoding of a record set and the version ≥ 7
type-1 useShort = 1 encoding of the same records decode to the same
ContactRecord columns. -/
theorem c6_version_equivalence (v1 v2 : ℤ) (hv1 : v1 < 7) (hv2 : ¬ v2 < 7)
    (records : List (ℤ × ℤ × ℚ)) :
    readBlockData v1 (mkV6Body records) = readBlockData v2 (mkT1SingleBody records) := by
  obtain ⟨h1, h2, h3⟩ := t1_single_rows records
  rw [readBlockData_mkV6 v1 hv1 records, mkT1SingleBody,
    readBlockData_mkT1Float v2 (records.length : ℤ) 0 0 1 hv2 one_ne_zero
      (records.map fun r => (r.2.1, [(r.1, r.2.2)])), h1, h2, h3]

/-- Witness for C6 at a concrete record list with a fractional count. -/
theorem c6_witness :
    readBlockData 6 (mkV6Body [(1, 2, mkQ 5 2 (by decide) (by decide))]) =
      readBlockData 8 (mkT1SingleBody [(1, 2, mkQ 5 2 (by decide) (by decide))]) :=
  c6_version_equivalence 6 8 (by decide) (by decide) _

/-- Claim C7: a matrix region emits records only in the diagonal case —
with an absent position (−1), with unequal chromosome ids, or with id 0
while `firstChromosomeIsAll`, the output accumulator is returned unchanged
whatever the rest of the file (block contents included) holds. -/
theorem c7_region_skip (fm : FileModel) (start size : ℤ) (info : hicInfo)
    (out : outputStr) (a b : ℤ) (rest : List Tok) :
    readMatrix fm (-1) size info out = Except.ok out ∧
    (fm.streamAt start = Tok.i32 a :: Tok.i32 b :: rest → a ≠ b →
      readMatrix fm start size info out = Except.ok out) ∧
    (fm.streamAt start = Tok.i32 0 :: Tok.i32 0 :: rest → info.firstChromosomeIsAll = true →
      readMatrix fm start size info out = Except.ok out) := by
  refine ⟨by simp [readMatrix], ?_, ?_⟩
  · intro hs hab
    by_cases hstart : start ≠ -1
    · rw [readMatrix, if_pos hstart]
      simp [hs, rdI32, Bind.bind, Except.bind, hab]
    · rw [readMatrix, if_neg hstart]
  · intro hs hall
    by_cases hstart : start ≠ -1
    · rw [readMatrix, if_pos hstart]
      simp [hs, rdI32, Bind.bind, Except.bind, hall]
    · rw [readMatrix, if_neg hstart]

/-- Witness for C7: an off-diagonal region, an ALL-chromosome region and an
absent region each leave a concrete accumulator unchanged. -/
theorem c7_witness :
    readMatrix offDiagFile 100 9 infoDemo outputStr.empty = Except.ok outputStr.empty ∧
      readMatrix allPairFile 100 9 infoAll outputStr.empty = Except.ok outputStr.empty ∧
      readMatrix offDiagFile (-1) 9 infoDemo outputStr.empty = Except.ok outputStr.empty :=
  ⟨(c7_region_skip offDiagFile 100 9 infoDemo outputStr.empty 1 2 []).2.1 rfl (by decide),
   (c7_region_skip allPairFile 100 9 infoAll outputStr.empty 0 0 []).2.2 rfl rfl,
   (c7_region_skip offDiagFile (-1) 9 infoDemo outputStr.empty 1 2 []).1⟩

/-- Claim C8: every successful `readBlock` appends the same number of
elements to the four output vectors, and at the end of every successful
parse the four output sequences have equal length. -/
theorem c8_equal_lengths :
    (∀ (fetch : ℤ → ℤ → List Tok) (position size chromosomeId : ℤ) (info : hicInfo)
        (out out2 : outputStr),
        readBlock fetch position size chromosomeId info out = Except.ok out2 →
        ∃ k, out2.chromosome.length = out.chromosome.length + k ∧
          out2.bin1.length = out.bin1.length + k ∧
          out2.bin2.length = out.bin2.length + k ∧
          out2.count.length = out.count.length + k) ∧
    ∀ (fm : FileModel) (resolution : ℤ) (out2 : outputStr),
      parseHiCFile fm resolution = Except.ok out2 → out2.balanced :=
  ⟨readBlock_appends, fun _ _ _ h => parseHiCFile_balanced h⟩

/-- Witness for C8: the demo block append and the demo end-to-end parse. -/
theorem c8_witness :
    (∃ k, (⟨[1], [3], [2], [7]⟩ : outputStr).chromosome.length =
        outputStr.empty.chromosome.length + k ∧
      (⟨[1], [3], [2], [7]⟩ : outputStr).bin1.length =
        outputStr.empty.bin1.length + k ∧
      (⟨[1], [3], [2], [7]⟩ : outputStr).bin2.length =
        outputStr.empty.bin2.length + k ∧
      (⟨[1], [3], [2], [7]⟩ : outputStr).count.length =
        outputStr.empty.count.length + k) ∧
    (⟨[1], [3], [2], [7]⟩ : outputStr).balanced :=
  ⟨c8_equal_lengths.1 (fun _ _ => demoBlockToks) 200 5 1 infoDemo outputStr.empty
      ⟨[1], [3], [2], [7]⟩ rfl,
   c8_equal_lengths.2 demoFile 10 ⟨[1], [3], [2], [7]⟩ rfl⟩

/-- Claim C9 counterexample: a type-2 block with stride w = 0 and one point
hits the division `i / w` at i = 0 — C++ undefined behaviour, surfaced by
the embedding as the divByZero failure, so the decode is NOT total. -/
theorem c9_counterexample :
    readBlockData 7
      [Tok.i32 1, Tok.i32 0, Tok.i32 0, Tok.i8 0, Tok.i8 2, Tok.i32 1, Tok.i16 0, Tok.i16 5] =
      Except.error Err.divByZero := rfl

/-- Claim C9, corrected: the type-2 point loop divides by zero exactly in
the w = 0, totalPoints > 0 case; whenever the stride is nonzero the loop
never performs a division by zero, for every point count, start index and
stream (including truncated ones). -/
theorem c9_stride_guard (useShort binXOffset binYOffset w : ℤ) (hw : w ≠ 0)
    (n : ℕ) (i : ℤ) (ts : List Tok) :
    readT2Points useShort binXOffset binYOffset w n i ts ≠ Except.error Err.divByZero :=
  readT2Points_ne_divByZero useShort binXOffset binYOffset w hw n i ts

/-- Witness for the corrected C9 at a concrete nonzero stride. -/
theorem c9_witness :
    readT2Points 0 0 0 1 2 0 [] ≠ Except.error Err.divByZero :=
  c9_stride_guard 0 0 0 1 (by decide) 2 0 []

/-- Claim C10 counterexample: a header declaring zero chromosomes reaches
`info.chromosomes[0]` on an empty table — an out-of-bounds access (C++
undefined behaviour), surfaced by the embedding as the oobIndex failure. -/
theorem c10_counterexample :
    readHeader noChromHeaderToks 10 = Except.error Err.oobIndex := rfl

/-- Claim C10, corrected: the `firstChromosomeIsAll` computation indexes
out of bounds exactly when the chromosome table is empty; for every header
with at least one chromosome entry the reader performs no out-of-bounds
access. -/
theorem c10_nonempty_inbounds (magic : String) (version master : ℤ) (genome : String)
    (attrs : List (String × String)) (c : String × ℤ) (cs : List (String × ℤ))
    (resolutions : List ℤ) (requested : ℤ) (rest : List Tok)
    (hm : magicOk magic = true) (hv : ¬ version < 6) :
    readHeader (mkHeaderToks magic version master genome attrs (c :: cs) resolutions ++ rest)
        requested ≠ Except.error Err.oobIndex := by
  rw [readHeader_mk magic version master genome attrs c cs resolutions requested rest hm hv]
  simp

/-- Witness for the corrected C10 at a concrete one-chromosome header. -/
theorem c10_witness :
    readHeader (mkHeaderToks "HIC" 8 999 "hg19" [] [("chr1", 100)] [10] ++ []) 10 ≠
      Except.error Err.oobIndex :=
  c10_nonempty_inbounds "HIC" 8 999 "hg19" [] ("chr1", 100) [] [10] 10 []
    (by decide) (by decide)
